import Mathlib

/-!
# Verification of the CAD-analysis / injection-molding quote repository

Shallow embedding of the quote engine (`src/src/App.jsx`) and the geometry
estimation pipeline (`src/src/utils/cadAnalyzer.js`, middle revision — the one
the claims cite — plus `src/unnamed/part_000` for
`calculateBoundingBoxFromPoints`).  JavaScript numbers are modelled by exact
rationals `ℚ`; where non-finite values (NaN, ±Infinity) are semantically
relevant (the point-cloud bounding-box code) we use an explicit `JNum` type
mirroring IEEE special-value propagation of the JS operations actually used
(`Math.min`, `Math.max`, `+`, `-`, `*`, `/`, `<`, `isFinite`).
-/

namespace MoldQuote

/-- `Math.abs` on finite values.  (Defined explicitly rather than via the
lattice `|·|` so that proofs can evaluate it by kernel reduction.) -/
def qabs (a : ℚ) : ℚ := if a < 0 then -a else a

/-- `Math.min` on finite values. -/
def qmin (a b : ℚ) : ℚ := if b < a then b else a

/-- `Math.max` on finite values. -/
def qmax (a b : ℚ) : ℚ := if a < b then b else a

lemma qabs_eq_abs (a : ℚ) : qabs a = |a| := by
  unfold qabs
  rcases lt_or_le a 0 with h | h
  · rw [if_pos h, abs_of_neg h]
  · rw [if_neg (not_lt.mpr h), abs_of_nonneg h]

lemma qmin_eq_min (a b : ℚ) : qmin a b = min a b := by
  unfold qmin
  rcases lt_or_le b a with h | h
  · rw [if_pos h, min_eq_right h.le]
  · rw [if_neg (not_lt.mpr h), min_eq_left h]

lemma qmax_eq_max (a b : ℚ) : qmax a b = max a b := by
  unfold qmax
  rcases lt_or_le a b with h | h
  · rw [if_pos h, max_eq_right h.le]
  · rw [if_neg (not_lt.mpr h), max_eq_left h]

/-! ## Quote engine data model (App.jsx lines 5-48) -/

structure Resin where
  id : ℕ
  density : ℚ
  costPerKg : ℚ
deriving DecidableEq, Repr

structure ColorOption where
  cid : String
  premium : ℚ
deriving DecidableEq, Repr

structure Machine where
  mid : ℕ
  clampForce : ℚ
  hourlyRate : ℚ
  maxMoldWidth : ℚ
  maxMoldHeight : ℚ
deriving DecidableEq, Repr

structure Rules where
  moldBaseMultiplier : ℚ
  cycleTimeBase : ℚ
  cycleTimePerMM : ℚ
  scrapRate : ℚ
  minCycleTime : ℚ
  cavitySpacing : ℚ
deriving DecidableEq, Repr

/-- `RESINS` from App.jsx lines 5-27 (name/description strings dropped). -/
def RESINS : List Resin :=
  [⟨1, 0.905, 1.80⟩, ⟨2, 1.04, 2.40⟩, ⟨3, 1.20, 4.20⟩]

/-- `COLOR_OPTIONS` from App.jsx lines 29-33. -/
def COLOR_OPTIONS : List ColorOption :=
  [⟨"natural", 0⟩, ⟨"black", 0.05⟩, ⟨"red", 0.10⟩]

/-- `MACHINES` from App.jsx lines 35-39. -/
def MACHINES : List Machine :=
  [⟨1, 50, 65, 300, 300⟩, ⟨2, 150, 85, 450, 450⟩, ⟨3, 300, 120, 600, 600⟩]

/-- `RULES` from App.jsx lines 41-48. -/
def RULES : Rules := ⟨2.5, 25, 1.5, 0.05, 15, 1.5⟩

structure PartData where
  volume : ℚ
  length : ℚ
  width : ℚ
  height : ℚ
  wallThickness : ℚ
deriving DecidableEq, Repr

/-- Whether a machine's mold envelope admits the given mold
(`machine.maxMoldWidth >= moldWidth && machine.maxMoldHeight >= moldHeight`,
App.jsx line 82). -/
def fitsMold (m : Machine) (moldWidth moldHeight : ℚ) : Prop :=
  moldWidth ≤ m.maxMoldWidth ∧ moldHeight ≤ m.maxMoldHeight

instance (m : Machine) (mw mh : ℚ) : Decidable (fitsMold m mw mh) := by
  unfold fitsMold; infer_instance

/-- The first element of the list attaining the minimal `clampForce`.
Embeds `.sort((a, b) => a.clampForce - b.clampForce)[0]` (App.jsx line 83):
JavaScript `Array.prototype.sort` is stable (ES2019), so the head of the
sorted array is the first element, in original order, with minimal clamp
force. -/
def pickFirstMin : List Machine → Option Machine
  | [] => none
  | m :: rest =>
    match pickFirstMin rest with
    | none => some m
    | some b => if b.clampForce < m.clampForce then some b else some m

/-- Machine selection (App.jsx lines 81-83):
`MACHINES.filter(fits).sort(byClampForce)[0] || MACHINES[MACHINES.length-1]`.
Returns `none` only for an empty catalog (where the JS would produce
`undefined` and the quote would crash on property access). -/
def selectMachine (machines : List Machine) (moldWidth moldHeight : ℚ) :
    Option Machine :=
  match pickFirstMin (machines.filter fun m => fitsMold m moldWidth moldHeight) with
  | some m => some m
  | none => machines.getLast?

structure QuoteResult where
  materialWeight : ℚ
  rawMaterialCost : ℚ
  colorCost : ℚ
  totalMaterialCost : ℚ
  moldWidth : ℚ
  moldHeight : ℚ
  selectedMachine : Machine
  cycleTime : ℚ
  partsPerHour : ℚ
  machineCostPerPart : ℚ
  totalCostPerPart : ℚ
deriving DecidableEq, Repr

/-- The body of `calculateQuote` (App.jsx lines 64-109) once the resin and
color records have been looked up.  `cavities` is the positive integer from
the cavity selector.  Returns `none` exactly when machine selection yields
no machine (empty catalog), where the JS code would throw. -/
def computeQuote (partData : PartData) (resin : Resin) (color : ColorOption)
    (cavities : ℕ) (machines : List Machine) (rules : Rules) :
    Option QuoteResult :=
  let materialWeight := partData.volume * resin.density
  let rawMaterialCost := materialWeight * resin.costPerKg / 1000
  let colorCost := rawMaterialCost * color.premium
  let totalMaterialCost := rawMaterialCost + colorCost
  let moldWidth := partData.width * rules.moldBaseMultiplier *
    (if 1 < cavities then rules.cavitySpacing else 1)
  let moldHeight := partData.height * rules.moldBaseMultiplier
  match selectMachine machines moldWidth moldHeight with
  | none => none
  | some machine =>
    let baseCycleTime := rules.cycleTimeBase + partData.wallThickness * rules.cycleTimePerMM
    let cycleTime := qmax baseCycleTime rules.minCycleTime
    let partsPerHour := (3600 / cycleTime) * (cavities : ℚ)
    let machineCostPerPart := machine.hourlyRate / partsPerHour
    let costBeforeScrap := totalMaterialCost + machineCostPerPart
    let totalCostPerPart := costBeforeScrap * (1 + rules.scrapRate)
    some ⟨materialWeight, rawMaterialCost, colorCost, totalMaterialCost,
      moldWidth, moldHeight, machine, cycleTime, partsPerHour,
      machineCostPerPart, totalCostPerPart⟩

/-- `calculateQuote` including the catalog lookups
`RESINS.find(r => r.id === selectedResin)` and
`COLOR_OPTIONS.find(c => c.id === selectedColor)` (App.jsx lines 65-68);
`none` models the `return null`. -/
def calculateQuote (partData : PartData) (selectedResin : ℕ)
    (selectedColor : String) (cavities : ℕ) : Option QuoteResult :=
  match RESINS.find? (fun r => r.id = selectedResin),
        COLOR_OPTIONS.find? (fun c => c.cid = selectedColor) with
  | some resin, some color =>
      computeQuote partData resin color cavities MACHINES RULES
  | _, _ => none

/-! ## JavaScript number semantics

The point-cloud code can receive NaN / ±Infinity coordinates and the claims
mention them explicitly, so those functions are embedded over `JNum`, a model
of JS numbers with exact rational finite values.  Only the operations the
source uses are defined: unary minus, `+`, `-`, `*`, `/`, `<`, `Math.min`,
`Math.max`, `isFinite`. -/

inductive JNum where
  | nan : JNum
  | posInf : JNum
  | negInf : JNum
  | fin (q : ℚ) : JNum
deriving DecidableEq, Repr

namespace JNum

/-- JS unary minus. -/
def neg : JNum → JNum
  | nan => nan
  | posInf => negInf
  | negInf => posInf
  | fin q => fin (-q)

/-- JS `+`. -/
def add : JNum → JNum → JNum
  | nan, _ => nan
  | _, nan => nan
  | posInf, negInf => nan
  | negInf, posInf => nan
  | posInf, _ => posInf
  | _, posInf => posInf
  | negInf, _ => negInf
  | _, negInf => negInf
  | fin a, fin b => fin (a + b)

/-- JS `-`. -/
def sub (a b : JNum) : JNum := add a (neg b)

/-- JS `*`. -/
def mul : JNum → JNum → JNum
  | nan, _ => nan
  | _, nan => nan
  | posInf, posInf => posInf
  | posInf, negInf => negInf
  | negInf, posInf => negInf
  | negInf, negInf => posInf
  | posInf, fin q => if q = 0 then nan else if 0 < q then posInf else negInf
  | fin q, posInf => if q = 0 then nan else if 0 < q then posInf else negInf
  | negInf, fin q => if q = 0 then nan else if 0 < q then negInf else posInf
  | fin q, negInf => if q = 0 then nan else if 0 < q then negInf else posInf
  | fin a, fin b => fin (a * b)

/-- JS `/` (a zero rational denominator stands for `+0`). -/
def div : JNum → JNum → JNum
  | nan, _ => nan
  | _, nan => nan
  | posInf, posInf => nan
  | posInf, negInf => nan
  | negInf, posInf => nan
  | negInf, negInf => nan
  | posInf, fin q => if 0 ≤ q then posInf else negInf
  | negInf, fin q => if 0 ≤ q then negInf else posInf
  | fin _, posInf => fin 0
  | fin _, negInf => fin 0
  | fin a, fin b =>
    if b = 0 then (if a = 0 then nan else if 0 < a then posInf else negInf)
    else fin (a / b)

/-- JS `<` (false whenever either side is NaN). -/
def lt : JNum → JNum → Bool
  | nan, _ => false
  | _, nan => false
  | negInf, negInf => false
  | negInf, _ => true
  | _, negInf => false
  | posInf, _ => false
  | fin _, posInf => true
  | fin a, fin b => decide (a < b)

/-- `Math.min` (NaN-propagating). -/
def min (a b : JNum) : JNum :=
  match a, b with
  | nan, _ => nan
  | _, nan => nan
  | _, _ => if lt b a then b else a

/-- `Math.max` (NaN-propagating). -/
def max (a b : JNum) : JNum :=
  match a, b with
  | nan, _ => nan
  | _, nan => nan
  | _, _ => if lt a b then b else a

/-- JS `isFinite`. -/
def isFinite : JNum → Bool
  | fin _ => true
  | _ => false

end JNum

/-! ## Point clouds and bounding boxes (cadAnalyzer.js) -/

structure JPoint where
  x : JNum
  y : JNum
  z : JNum
deriving DecidableEq, Repr

structure JBox where
  width : JNum
  depth : JNum
  height : JNum
deriving DecidableEq, Repr

/-- The fixed `{ width: 100, depth: 80, height: 60 }` fallback box. -/
def defaultBox : JBox := ⟨.fin 100, .fin 80, .fin 60⟩

/-- `isValidPoint` (cadAnalyzer.js lines 370-376): finite coordinates with
absolute value at most 10000 (the source rejects `Math.abs(c) > 10000`). -/
def isValidPointJ (p : JPoint) : Bool :=
  match p.x, p.y, p.z with
  | .fin a, .fin b, .fin c => decide (qabs a ≤ 10000 ∧ qabs b ≤ 10000 ∧ qabs c ≤ 10000)
  | _, _, _ => false

def foldMinBy (f : JPoint → JNum) (init : JNum) (ps : List JPoint) : JNum :=
  ps.foldl (fun acc p => JNum.min acc (f p)) init

def foldMaxBy (f : JPoint → JNum) (init : JNum) (ps : List JPoint) : JNum :=
  ps.foldl (fun acc p => JNum.max acc (f p)) init

def sumBy (f : JPoint → JNum) (ps : List JPoint) : JNum :=
  ps.foldl (fun acc p => JNum.add acc (f p)) (.fin 0)

/-- `removeOutliers` (cadAnalyzer.js lines 422-452).  Per-axis mean and
variance, then keep points within 2 standard deviations on every axis.
The source tests `Math.abs(x - mean) < 2 * Math.sqrt(var)`; over exact
arithmetic this is rendered equivalently as `(x - mean)² < 4 * var`
(both sides are non-negative whenever they are finite, and the NaN/∞
comparison outcomes coincide). -/
def removeOutliers (points : List JPoint) : List JPoint :=
  if points.length < 10 then points
  else
    let n : JNum := .fin (points.length : ℚ)
    let meanX := JNum.div (sumBy (·.x) points) n
    let meanY := JNum.div (sumBy (·.y) points) n
    let meanZ := JNum.div (sumBy (·.z) points) n
    let varX := JNum.div (sumBy (fun p => JNum.mul (JNum.sub p.x meanX) (JNum.sub p.x meanX)) points) n
    let varY := JNum.div (sumBy (fun p => JNum.mul (JNum.sub p.y meanY) (JNum.sub p.y meanY)) points) n
    let varZ := JNum.div (sumBy (fun p => JNum.mul (JNum.sub p.z meanZ) (JNum.sub p.z meanZ)) points) n
    points.filter fun p =>
      JNum.lt (JNum.mul (JNum.sub p.x meanX) (JNum.sub p.x meanX)) (JNum.mul (.fin 4) varX) &&
      JNum.lt (JNum.mul (JNum.sub p.y meanY) (JNum.sub p.y meanY)) (JNum.mul (.fin 4) varY) &&
      JNum.lt (JNum.mul (JNum.sub p.z meanZ) (JNum.sub p.z meanZ)) (JNum.mul (.fin 4) varZ)

/-- `calculateAccurateBoundingBox` (cadAnalyzer.js lines 379-419).  Empty
input returns the default box; otherwise extents are taken over the
outlier-filtered points, and if `minX` did not become finite the loop is
re-run over the unfiltered points, continuing from the already-accumulated
values (the JS does not reset the accumulators). -/
def calculateAccurateBoundingBox (points : List JPoint) : JBox :=
  if points.length = 0 then defaultBox
  else
    let filtered := removeOutliers points
    let minX0 := foldMinBy (·.x) .posInf filtered
    let maxX0 := foldMaxBy (·.x) .negInf filtered
    let minY0 := foldMinBy (·.y) .posInf filtered
    let maxY0 := foldMaxBy (·.y) .negInf filtered
    let minZ0 := foldMinBy (·.z) .posInf filtered
    let maxZ0 := foldMaxBy (·.z) .negInf filtered
    let retry := !minX0.isFinite
    let minX := if retry then foldMinBy (·.x) minX0 points else minX0
    let maxX := if retry then foldMaxBy (·.x) maxX0 points else maxX0
    let minY := if retry then foldMinBy (·.y) minY0 points else minY0
    let maxY := if retry then foldMaxBy (·.y) maxY0 points else maxY0
    let minZ := if retry then foldMinBy (·.z) minZ0 points else minZ0
    let maxZ := if retry then foldMaxBy (·.z) maxZ0 points else maxZ0
    ⟨JNum.max (.fin 1) (JNum.sub maxX minX),
     JNum.max (.fin 1) (JNum.sub maxY minY),
     JNum.max (.fin 1) (JNum.sub maxZ minZ)⟩

/-- `calculateBoundingBoxFromPoints` (src/unnamed/part_000 lines 153-181).
Empty input or a non-finite `minX` gives the default box; otherwise the
per-axis extents floored at 1. -/
def calculateBoundingBoxFromPoints (points : List JPoint) : JBox :=
  if points.length = 0 then defaultBox
  else
    let minX := foldMinBy (·.x) .posInf points
    let maxX := foldMaxBy (·.x) .negInf points
    let minY := foldMinBy (·.y) .posInf points
    let maxY := foldMaxBy (·.y) .negInf points
    let minZ := foldMinBy (·.z) .posInf points
    let maxZ := foldMaxBy (·.z) .negInf points
    if minX.isFinite then
      ⟨JNum.max (.fin 1) (JNum.sub maxX minX),
       JNum.max (.fin 1) (JNum.sub maxY minY),
       JNum.max (.fin 1) (JNum.sub maxZ minZ)⟩
    else defaultBox

/-- Finite-valued points, used to compare the code with the spec's wording. -/
structure QPoint where
  x : ℚ
  y : ℚ
  z : ℚ
deriving DecidableEq, Repr

structure QBox where
  width : ℚ
  depth : ℚ
  height : ℚ
deriving DecidableEq, Repr

def finPoint (p : QPoint) : JPoint := ⟨.fin p.x, .fin p.y, .fin p.z⟩

def finBox (b : QBox) : JBox := ⟨.fin b.width, .fin b.depth, .fin b.height⟩

/-- `BoundingBoxEstimator` as the spec words it (spec.md §4.2): per-axis
`max − min`, each floored at 1; an empty input set returns the fixed
default box 100 × 80 × 60. -/
def specBoundingBox : List QPoint → QBox
  | [] => ⟨100, 80, 60⟩
  | p :: rest =>
    let minX := rest.foldl (fun a q => qmin a q.x) p.x
    let maxX := rest.foldl (fun a q => qmax a q.x) p.x
    let minY := rest.foldl (fun a q => qmin a q.y) p.y
    let maxY := rest.foldl (fun a q => qmax a q.y) p.y
    let minZ := rest.foldl (fun a q => qmin a q.z) p.z
    let maxZ := rest.foldl (fun a q => qmax a q.z) p.z
    ⟨qmax 1 (maxX - minX), qmax 1 (maxY - minY), qmax 1 (maxZ - minZ)⟩

/-! ## Wall-thickness heuristics (three copies in the source) -/

/-- The stepped lookup as the spec words it (spec.md §4.3):
`size<25→1.0; <50→1.5; <100→2.0; <200→2.5; else→3.0`. -/
def wallThicknessSpec (s : ℚ) : ℚ :=
  if s < 25 then 1.0
  else if s < 50 then 1.5
  else if s < 100 then 2.0
  else if s < 200 then 2.5
  else 3.0

/-- `estimateWallThicknessFromDimensions` (cadAnalyzer.js lines 129-137):
mean of the three dimensions, then the stepped lookup. -/
def estimateWallThicknessFromDimensions (length width height : ℚ) : ℚ :=
  let avgSize := (length + width + height) / 3
  if avgSize < 25 then 1.0
  else if avgSize < 50 then 1.5
  else if avgSize < 100 then 2.0
  else if avgSize < 200 then 2.5
  else 3.0

/-- `estimateWallThicknessSTL` (cadAnalyzer.js lines 614-623): the size
scalar is the bounding-sphere diameter `radius * 2`. -/
def estimateWallThicknessSTL (radius : ℚ) : ℚ :=
  let size := radius * 2
  if size < 25 then 1.0
  else if size < 50 then 1.5
  else if size < 100 then 2.0
  else if size < 200 then 2.5
  else 3.0

/-- `estimateWallThicknessFromBoundingBox` (cadAnalyzer.js lines 467-476),
over the JS-number boxes the STEP cascade passes it.  The JS `<` on a NaN
average is false on every test, so a NaN box falls through to 3.0. -/
def estimateWallThicknessFromBoundingBox (bbox : JBox) : ℚ :=
  let avgSize := JNum.div (JNum.add (JNum.add bbox.width bbox.depth) bbox.height) (.fin 3)
  if JNum.lt avgSize (.fin 25) then 1.0
  else if JNum.lt avgSize (.fin 50) then 1.5
  else if JNum.lt avgSize (.fin 100) then 2.0
  else if JNum.lt avgSize (.fin 200) then 2.5
  else 3.0

/-! ## The STEP estimation cascade (cadAnalyzer.js middle revision)

The regex-driven text extraction is an external lexer from the cascade's
point of view: `analyzeSTEP` and the claims about it depend only on its
output, a point list with a complexity score (and, for the fallback scan,
the per-line numerals matched by `/(-?\d{2,}\.\d+)/g`).  `Math.cbrt` is
irrational on most inputs, so it is passed in as an abstract function; no
claim depends on its values. -/

structure StepGeometryData where
  points : List JPoint
  complexity : ℚ
deriving Repr

inductive Accuracy where
  | high : Accuracy
  | medium : Accuracy
  | low : Accuracy
deriving DecidableEq, Repr

/-- `calculateVolumeFromBoundingBox` (cadAnalyzer.js lines 455-464):
`boxVolume × (0.6 − 0.3·min(complexity/10, 1)) / 1000`, floored at 0.1. -/
def calculateVolumeFromBoundingBox (bbox : JBox) (complexity : ℚ) : JNum :=
  let boxVolume := JNum.mul (JNum.mul bbox.width bbox.depth) bbox.height
  let solidity : ℚ := 0.6 - 0.3 * qmin (complexity / 10) 1
  let volumeMM3 := JNum.mul boxVolume (.fin solidity)
  let volumeCM3 := JNum.div volumeMM3 (.fin 1000)
  JNum.max (.fin 0.1) volumeCM3

structure StepParse where
  volume : JNum
  length : JNum
  width : JNum
  height : JNum
  wallThickness : ℚ
deriving DecidableEq, Repr

/-- `parseSTEPGeometry` (cadAnalyzer.js lines 229-267).  Succeeds only when
strictly more than 10 points were extracted (`points.length > 10`); `none`
models `resolve({ success: false })`. -/
def parseSTEPGeometry (g : StepGeometryData) : Option StepParse :=
  if 10 < g.points.length then
    let bbox := calculateAccurateBoundingBox g.points
    some ⟨calculateVolumeFromBoundingBox bbox g.complexity,
          bbox.width, bbox.depth, bbox.height,
          estimateWallThicknessFromBoundingBox bbox⟩
  else none

structure DimExtract where
  found : Bool
  volume : ℚ
  length : ℚ
  width : ℚ
  height : ℚ
  wallThickness : ℚ
deriving DecidableEq, Repr

/-- The scanning loop of `extractDimensionsFromSTEPContent` (cadAnalyzer.js
lines 514-528): the first line whose matched numerals have a maximal
absolute value strictly between 10 and 1000 supplies that maximum; lines
with no match or an out-of-range maximum are skipped. -/
def scanLinesForDims : List (List ℚ) → Option ℚ
  | [] => none
  | line :: rest =>
    match line with
    | [] => scanLinesForDims rest
    | c :: cs =>
      let maxCoord := cs.foldl (fun a q => qmax a (qabs q)) (qabs c)
      if 10 < maxCoord ∧ maxCoord < 1000 then some maxCoord
      else scanLinesForDims rest

/-- `extractDimensionsFromSTEPContent` (cadAnalyzer.js lines 509-543).
`lines` holds, per text line, the numerals matched by the
`/(-?\d{2,}\.\d+)/g` pattern (≥2 integer digits and a decimal fraction). -/
def extractDimensionsFromSTEPContent (lines : List (List ℚ)) : DimExtract :=
  let scanned := scanLinesForDims lines
  let found := scanned.isSome
  let length : ℚ := match scanned with | some m => m * 0.8 | none => 100
  let width : ℚ := match scanned with | some m => m * 0.6 | none => 80
  let height : ℚ := match scanned with | some m => m * 0.4 | none => 60
  let volume := length * width * height / 1000
  let wallThickness := estimateWallThicknessFromBoundingBox
    ⟨.fin length, .fin width, .fin height⟩
  ⟨found, qmax 1 volume, length, width, height, wallThickness⟩

structure SizeEstimate where
  volume : ℚ
  length : ℚ
  width : ℚ
  height : ℚ
  wallThickness : ℚ
deriving DecidableEq, Repr

/-- `estimateFromFileSize` (cadAnalyzer.js lines 546-565). -/
def estimateFromFileSize (cbrt : ℚ → ℚ) (fileSize : ℕ) (isStep : Bool) :
    SizeEstimate :=
  let baseScale := cbrt ((fileSize : ℚ) / 10000)
  let formatMultiplier : ℚ := if isStep then 1.2 else 1.0
  let scale := baseScale * formatMultiplier
  let length := qmax 20 (80 * scale)
  let width := qmax 15 (60 * scale)
  let height := qmax 10 (40 * scale)
  let boundingBoxVolume := length * width * height
  let volume := boundingBoxVolume * 0.5 / 1000
  ⟨qmax 5 volume, length, width, height, 1.5 + scale * 0.5⟩

structure StepAnalysis where
  volume : JNum
  length : JNum
  width : JNum
  height : JNum
  wallThickness : ℚ
  accuracy : Accuracy
deriving DecidableEq, Repr

/-- `analyzeSTEPWithFileAnalysis` (cadAnalyzer.js lines 479-506): the
dimension-pattern scan over the first 5000 bytes gives tier medium; the
file-size estimate gives tier low. -/
def analyzeSTEPWithFileAnalysis (cbrt : ℚ → ℚ) (scanLines : List (List ℚ))
    (fileSize : ℕ) : StepAnalysis :=
  let extractedDims := extractDimensionsFromSTEPContent scanLines
  if extractedDims.found then
    let volumeCM3 := extractedDims.length * extractedDims.width *
      extractedDims.height / 1000
    ⟨.fin (qmax 1 (volumeCM3 * 0.5)),
     .fin extractedDims.length, .fin extractedDims.width,
     .fin extractedDims.height, extractedDims.wallThickness, .medium⟩
  else
    let e := estimateFromFileSize cbrt fileSize true
    ⟨.fin e.volume, .fin e.length, .fin e.width, .fin e.height,
     e.wallThickness, .low⟩

/-- `analyzeSTEP` (cadAnalyzer.js lines 206-226): the parsed-geometry tier
(accuracy high) when `parseSTEPGeometry` succeeds, otherwise the file
analysis fallback.  A parse exception also resolves `success: false`, so
no error escapes this function. -/
def analyzeSTEP (g : StepGeometryData) (cbrt : ℚ → ℚ)
    (scanLines : List (List ℚ)) (fileSize : ℕ) : StepAnalysis :=
  match parseSTEPGeometry g with
  | some a => ⟨a.volume, a.length, a.width, a.height, a.wallThickness, .high⟩
  | none => analyzeSTEPWithFileAnalysis cbrt scanLines fileSize

/-! ## File dispatch and the analysis entry point -/

inductive FileType where
  | stl : FileType
  | step : FileType
  | iges : FileType
deriving DecidableEq, Repr

/-- The `formatMap` lookup (cadAnalyzer.js lines 628-635). -/
def formatMap (ext : String) : Option FileType :=
  if ext = ".stl" then some .stl
  else if ext = ".stp" then some .step
  else if ext = ".step" then some .step
  else if ext = ".igs" then some .iges
  else if ext = ".iges" then some .iges
  else none

/-- JS `String.prototype.split('.')` over the character list (splitting on
every dot, keeping empty groups, `[""]` for the empty string — exactly the
JS semantics). -/
def splitDot : List Char → List (List Char)
  | [] => [[]]
  | c :: rest =>
    let r := splitDot rest
    if c = '.' then [] :: r
    else
      match r with
      | [] => [[c]]
      | g :: gs => (c :: g) :: gs

/-- `'.' + fileName.toLowerCase().split('.').pop()`. -/
def extOf (fileName : String) : String :=
  ⟨'.' :: ((splitDot (fileName.data.map Char.toLower)).getLast?.getD [])⟩

/-- `getFileType` (cadAnalyzer.js lines 626-636). -/
def getFileType (fileName : String) : Option FileType :=
  formatMap (extOf fileName)

def SUPPORTED : List String := [".stl", ".stp", ".step", ".igs", ".iges"]

/-- `validateFile` (cadAnalyzer.js lines 638-651): unsupported extensions
and files over 100 MiB are rejected with a thrown error. -/
def validateFile (fileName : String) (size : ℕ) : Except String Unit :=
  if extOf fileName ∈ SUPPORTED then
    if size ≤ 100 * 1024 * 1024 then .ok ()
    else .error "File too large. Maximum size: 100MB"
  else .error "Unsupported format"

/-! ## Mesh integration (STL path), over exact rationals -/

structure Vec3 where
  x : ℚ
  y : ℚ
  z : ℚ
deriving DecidableEq, Repr

def dotV (a b : Vec3) : ℚ := a.x * b.x + a.y * b.y + a.z * b.z

def crossV (a b : Vec3) : Vec3 :=
  ⟨a.y * b.z - a.z * b.y, a.z * b.x - a.x * b.z, a.x * b.y - a.y * b.x⟩

/-- Scalar triple product `a · (b × c)`. -/
def tripleProduct (a b c : Vec3) : ℚ := dotV a (crossV b c)

structure Triangle where
  A : Vec3
  B : Vec3
  C : Vec3
deriving DecidableEq, Repr

/-- `calculateSTLVolume` (cadAnalyzer.js lines 598-611): accumulate
`a.dot(b.cross(c)) / 6` over the position attribute taken three vertices at
a time, then `Math.abs`. -/
def calculateSTLVolume (tris : List Triangle) : ℚ :=
  qabs (tris.foldl (fun acc t => acc + tripleProduct t.A t.B t.C / 6) 0)

def mapTriangle (f : Vec3 → Vec3) (t : Triangle) : Triangle :=
  ⟨f t.A, f t.B, f t.C⟩

/-- The directed boundary edges of a triangle list. -/
def edgeList : List Triangle → List (Vec3 × Vec3)
  | [] => []
  | t :: rest => (t.A, t.B) :: (t.B, t.C) :: (t.C, t.A) :: edgeList rest

/-- A closed, consistently-triangulated surface: every directed edge is
matched by its reversal (as multisets). -/
def IsClosedMesh (tris : List Triangle) : Prop :=
  ((edgeList tris).map Prod.swap : Multiset (Vec3 × Vec3)) =
    ((edgeList tris) : Multiset (Vec3 × Vec3))

instance (tris : List Triangle) : Decidable (IsClosedMesh tris) := by
  unfold IsClosedMesh; infer_instance

structure Mat3 where
  m11 : ℚ
  m12 : ℚ
  m13 : ℚ
  m21 : ℚ
  m22 : ℚ
  m23 : ℚ
  m31 : ℚ
  m32 : ℚ
  m33 : ℚ
deriving DecidableEq, Repr

def mulVec (R : Mat3) (v : Vec3) : Vec3 :=
  ⟨R.m11 * v.x + R.m12 * v.y + R.m13 * v.z,
   R.m21 * v.x + R.m22 * v.y + R.m23 * v.z,
   R.m31 * v.x + R.m32 * v.y + R.m33 * v.z⟩

def detM (R : Mat3) : ℚ :=
  R.m11 * (R.m22 * R.m33 - R.m23 * R.m32)
  - R.m12 * (R.m21 * R.m33 - R.m23 * R.m31)
  + R.m13 * (R.m21 * R.m32 - R.m22 * R.m31)

/-- Proper rotation: orthonormal rows (`RᵀR = I` written out) and
determinant 1. -/
def IsRotation (R : Mat3) : Prop :=
  (R.m11 * R.m11 + R.m21 * R.m21 + R.m31 * R.m31 = 1) ∧
  (R.m12 * R.m12 + R.m22 * R.m22 + R.m32 * R.m32 = 1) ∧
  (R.m13 * R.m13 + R.m23 * R.m23 + R.m33 * R.m33 = 1) ∧
  (R.m11 * R.m12 + R.m21 * R.m22 + R.m31 * R.m32 = 0) ∧
  (R.m11 * R.m13 + R.m21 * R.m23 + R.m31 * R.m33 = 0) ∧
  (R.m12 * R.m13 + R.m22 * R.m23 + R.m32 * R.m33 = 0) ∧
  detM R = 1

instance (R : Mat3) : Decidable (IsRotation R) := by
  unfold IsRotation; infer_instance

def vadd (a b : Vec3) : Vec3 := ⟨a.x + b.x, a.y + b.y, a.z + b.z⟩

/-- The rigid motion `v ↦ R v + t`. -/
def rigidMap (R : Mat3) (t : Vec3) (v : Vec3) : Vec3 := vadd (mulVec R v) t

/-- `analyzeSTLWithThreeJS` output record (cadAnalyzer.js lines 568-595),
after a successful parse. -/
structure STLAnalysis where
  volume : ℚ
  length : ℚ
  width : ℚ
  height : ℚ
  wallThickness : ℚ
deriving DecidableEq, Repr

/-- What the STL loader hands the analyzer when `loader.parse` succeeds:
the triangle soup plus the Three.js bounding box and bounding sphere. -/
structure ParsedSTL where
  tris : List Triangle
  minX : ℚ
  maxX : ℚ
  minY : ℚ
  maxY : ℚ
  minZ : ℚ
  maxZ : ℚ
  sphereRadius : ℚ
deriving DecidableEq, Repr

/-- `analyzeSTLWithThreeJS` (cadAnalyzer.js lines 568-595): a parse failure
is rejected (propagated); a success is floored and converted. -/
def analyzeSTLWithThreeJS (parsed : Except String ParsedSTL) :
    Except String STLAnalysis :=
  match parsed with
  | .error e => .error e
  | .ok g =>
    .ok ⟨qmax 0.1 (calculateSTLVolume g.tris / 1000),
         qmax 1 (g.maxX - g.minX),
         qmax 1 (g.maxY - g.minY),
         qmax 1 (g.maxZ - g.minZ),
         qmax 0.5 (estimateWallThicknessSTL g.sphereRadius)⟩

structure CADResult where
  volume : JNum
  length : JNum
  width : JNum
  height : JNum
  wallThickness : ℚ
  accuracy : Accuracy
deriving DecidableEq, Repr

/-- `analyzeCADFile` (cadAnalyzer.js lines 170-198, middle revision): STL
files run the Three.js analyzer, STEP files run the cascade, anything else
that reaches the dispatch throws `Unsupported file type`.  Any error from
the branches is caught and re-thrown as `Failed to analyze ...`. -/
def analyzeCADFile (fileName : String)
    (parsedSTL : Except String ParsedSTL) (g : StepGeometryData)
    (cbrt : ℚ → ℚ) (scanLines : List (List ℚ)) (fileSize : ℕ) :
    Except String CADResult :=
  match getFileType fileName with
  | some .stl =>
    match analyzeSTLWithThreeJS parsedSTL with
    | .ok a => .ok ⟨.fin a.volume, .fin a.length, .fin a.width,
        .fin a.height, a.wallThickness, .high⟩
    | .error e => .error ("Failed to analyze STL file: " ++ e)
  | some .step =>
    let r := analyzeSTEP g cbrt scanLines fileSize
    .ok ⟨r.volume, r.length, r.width, r.height, r.wallThickness, r.accuracy⟩
  | some .iges => .error "Failed to analyze IGES file: Unsupported file type: iges"
  | none => .error "Failed to analyze file: unrecognized type"

/-! ## Derived forms and concrete data used by the theorems -/

/-- The machine `calculateQuote` ends up with for a given mold, for the
shipped `MACHINES` catalog (closed form of `selectMachine MACHINES`). -/
def machineFor (mw mh : ℚ) : Machine :=
  if mw ≤ 300 ∧ mh ≤ 300 then ⟨1, 50, 65, 300, 300⟩
  else if mw ≤ 450 ∧ mh ≤ 450 then ⟨2, 150, 85, 450, 450⟩
  else ⟨3, 300, 120, 600, 600⟩

/-- Mold width for `cavities` cavities (App.jsx line 77). -/
def moldW (pd : PartData) (cavities : ℕ) : ℚ :=
  pd.width * 2.5 * (if 1 < cavities then 1.5 else 1)

/-- Mold height (App.jsx line 78). -/
def moldH (pd : PartData) : ℚ := pd.height * 2.5

/-- Cycle time (App.jsx lines 86-87). -/
def cycleT (pd : PartData) : ℚ := qmax (25 + pd.wallThickness * 1.5) 15

/-- Ten valid extracted points (for the boundary of the `> 10` test). -/
def tenPoints : List JPoint :=
  [⟨.fin 0, .fin 0, .fin 0⟩, ⟨.fin 1, .fin 1, .fin 1⟩,
   ⟨.fin 2, .fin 2, .fin 2⟩, ⟨.fin 3, .fin 3, .fin 3⟩,
   ⟨.fin 4, .fin 4, .fin 4⟩, ⟨.fin 5, .fin 5, .fin 5⟩,
   ⟨.fin 6, .fin 6, .fin 6⟩, ⟨.fin 7, .fin 7, .fin 7⟩,
   ⟨.fin 8, .fin 8, .fin 8⟩, ⟨.fin 9, .fin 9, .fin 9⟩]

/-- Eleven valid extracted points (just above the `> 10` test). -/
def elevenPoints : List JPoint := ⟨.fin 10, .fin 10, .fin 10⟩ :: tenPoints

/-- A ten-point cloud whose x-outlier survives the raw extent but is
dropped by the outlier filter (y/z have positive variance so the filter
does not collapse to the degenerate-variance fallback). -/
def outlierPoints : List QPoint :=
  [⟨0, 0, 0⟩, ⟨0, 1, 1⟩, ⟨0, 2, 2⟩, ⟨0, 3, 3⟩, ⟨0, 4, 4⟩,
   ⟨0, 5, 5⟩, ⟨0, 6, 6⟩, ⟨0, 7, 7⟩, ⟨0, 8, 8⟩, ⟨100, 4, 4⟩]

/-- A trivially parsed STL used where the STL branch is irrelevant. -/
def dummyParsed : ParsedSTL := ⟨[], 0, 0, 0, 0, 0, 0, 0⟩

def tetraF0 : Triangle := ⟨⟨0, 0, 0⟩, ⟨0, 1, 0⟩, ⟨1, 0, 0⟩⟩

def tetraF1 : Triangle := ⟨⟨0, 0, 0⟩, ⟨1, 0, 0⟩, ⟨0, 0, 1⟩⟩

def tetraF2 : Triangle := ⟨⟨1, 0, 0⟩, ⟨0, 1, 0⟩, ⟨0, 0, 1⟩⟩

def tetraF3 : Triangle := ⟨⟨0, 0, 0⟩, ⟨0, 0, 1⟩, ⟨0, 1, 0⟩⟩

/-- Unit tetrahedron, consistently oriented (a closed mesh). -/
def tetraMesh : List Triangle := [tetraF0, tetraF1, tetraF2, tetraF3]

/-- Rotation by 90° about the z-axis. -/
def rotZ : Mat3 := ⟨0, -1, 0, 1, 0, 0, 0, 0, 1⟩

/-! ## Quote engine lemmas -/

lemma selectMachine_MACHINES (mw mh : ℚ) :
    selectMachine MACHINES mw mh = some (machineFor mw mh) := by
  by_cases h1 : mw ≤ 300 ∧ mh ≤ 300 <;>
  by_cases h2 : mw ≤ 450 ∧ mh ≤ 450 <;>
  by_cases h3 : mw ≤ 600 ∧ mh ≤ 600 <;>
  simp [selectMachine, MACHINES, machineFor, fitsMold, pickFirstMin,
    List.filter, h1, h2, h3] <;> decide

lemma machineFor_rate_pos (mw mh : ℚ) : 0 < (machineFor mw mh).hourlyRate := by
  unfold machineFor; split_ifs <;> norm_num

lemma computeQuote_MACHINES (pd : PartData) (resin : Resin)
    (color : ColorOption) (cav : ℕ) :
    computeQuote pd resin color cav MACHINES RULES = some
      { materialWeight := pd.volume * resin.density,
        rawMaterialCost := pd.volume * resin.density * resin.costPerKg / 1000,
        colorCost := pd.volume * resin.density * resin.costPerKg / 1000 * color.premium,
        totalMaterialCost := pd.volume * resin.density * resin.costPerKg / 1000
          + pd.volume * resin.density * resin.costPerKg / 1000 * color.premium,
        moldWidth := moldW pd cav,
        moldHeight := moldH pd,
        selectedMachine := machineFor (moldW pd cav) (moldH pd),
        cycleTime := cycleT pd,
        partsPerHour := 3600 / cycleT pd * (cav : ℚ),
        machineCostPerPart := (machineFor (moldW pd cav) (moldH pd)).hourlyRate
          / (3600 / cycleT pd * (cav : ℚ)),
        totalCostPerPart := (pd.volume * resin.density * resin.costPerKg / 1000
          + pd.volume * resin.density * resin.costPerKg / 1000 * color.premium
          + (machineFor (moldW pd cav) (moldH pd)).hourlyRate
            / (3600 / cycleT pd * (cav : ℚ))) * (1 + 0.05) } := by
  simp only [computeQuote, selectMachine_MACHINES]
  rfl

lemma cycleT_ge (pd : PartData) : 15 ≤ cycleT pd := by
  rw [cycleT, qmax_eq_max]; exact le_max_right _ _

lemma cycleT_pos (pd : PartData) : 0 < cycleT pd :=
  lt_of_lt_of_le (by norm_num) (cycleT_ge pd)

/-! ## Claim theorems -/

/-- **C2** (confirmed): for volume 50 cm³, dims 100×80×60 mm, wall
thickness 2.5 mm, PP resin (density 0.905, $1.80/kg), natural color,
1 cavity, the quote is exactly: materialWeight 45.25 g, rawMaterialCost
45.25×1.80/1000, mold 200×150 mm, the Small Press (the smallest machine
whose envelope fits — it fits and has the least clamp force among fitting
machines), cycleTime max(25+2.5×1.5, 15) = 28.75 s, partsPerHour
3600/28.75, machineCostPerPart 65/(3600/28.75), and totalCostPerPart
(rawMaterialCost + machineCostPerPart)×1.05. -/
theorem quote_end_to_end_scenario :
    calculateQuote ⟨50, 100, 80, 60, 2.5⟩ 1 "natural" 1 = some
      { materialWeight := 45.25,
        rawMaterialCost := 45.25 * 1.80 / 1000,
        colorCost := 0,
        totalMaterialCost := 45.25 * 1.80 / 1000,
        moldWidth := 80 * 2.5,
        moldHeight := 60 * 2.5,
        selectedMachine := ⟨1, 50, 65, 300, 300⟩,
        cycleTime := qmax (25 + 2.5 * 1.5) 15,
        partsPerHour := 3600 / 28.75,
        machineCostPerPart := 65 / (3600 / 28.75),
        totalCostPerPart := (45.25 * 1.80 / 1000 + 65 / (3600 / 28.75)) * 1.05 } ∧
    qmax (25 + 2.5 * 1.5 : ℚ) 15 = 28.75 ∧
    (3600 / 28.75 : ℚ) = 2880 / 23 ∧
    fitsMold ⟨1, 50, 65, 300, 300⟩ (80 * 2.5) (60 * 2.5) ∧
    (∀ m ∈ MACHINES, fitsMold m (80 * 2.5) (60 * 2.5) → (50 : ℚ) ≤ m.clampForce) := by
  refine ⟨?_, by norm_num [qmax], by norm_num, by norm_num [fitsMold], ?_⟩
  · rw [show calculateQuote ⟨50, 100, 80, 60, 2.5⟩ 1 "natural" 1
        = computeQuote ⟨50, 100, 80, 60, 2.5⟩ ⟨1, 0.905, 1.80⟩ ⟨"natural", 0⟩ 1
            MACHINES RULES from rfl,
      computeQuote_MACHINES]
    simp only [Option.some.injEq, QuoteResult.mk.injEq]
    norm_num [machineFor, moldW, moldH, cycleT, qmax]
  · intro m hm hfit
    fin_cases hm <;> norm_num
  

/-- Witness for the machine-minimality conjunct of
`quote_end_to_end_scenario` at the Medium Press. -/
theorem quote_end_to_end_scenario_witness :
    (50 : ℚ) ≤ (⟨2, 150, 85, 450, 450⟩ : Machine).clampForce :=
  quote_end_to_end_scenario.2.2.2.2 ⟨2, 150, 85, 450, 450⟩ (by decide)
    (by norm_num [fitsMold])

/-- **C9** (confirmed): the outlier filter is the identity on any point
set with fewer than 10 points. -/
theorem outlier_filter_small_identity (ps : List JPoint)
    (h : ps.length < 10) : removeOutliers ps = ps := by
  unfold removeOutliers
  rw [if_pos h]

/-- Witness for `outlier_filter_small_identity` at a concrete 2-point set. -/
theorem outlier_filter_small_identity_witness :
    removeOutliers [⟨.fin 1, .fin 2, .fin 3⟩, ⟨.nan, .posInf, .fin 4⟩] =
      [⟨.fin 1, .fin 2, .fin 3⟩, ⟨.nan, .posInf, .fin 4⟩] :=
  outlier_filter_small_identity _ (by decide)

/-- **C10** (confirmed): for any finite non-negative part data (all-zero
included) and any cavity count ≥ 1, the quote computes without dividing by
zero: the cycle time is at least 15 (hence positive), parts-per-hour is
positive, and the divisions `3600 / cycleTime` and `hourlyRate /
partsPerHour` have the defining cross-multiplication properties of genuine
division by a nonzero denominator. -/
theorem quote_no_division_by_zero (pd : PartData) (resin : Resin)
    (color : ColorOption) (cav : ℕ)
    (hv : 0 ≤ pd.volume) (hl : 0 ≤ pd.length) (hw : 0 ≤ pd.width)
    (hh : 0 ≤ pd.height) (hwt : 0 ≤ pd.wallThickness) (hcav : 1 ≤ cav) :
    ∃ q, computeQuote pd resin color cav MACHINES RULES = some q ∧
      15 ≤ q.cycleTime ∧ 0 < q.partsPerHour ∧
      q.partsPerHour * q.cycleTime = 3600 * (cav : ℚ) ∧
      q.machineCostPerPart * q.partsPerHour = q.selectedMachine.hourlyRate := by
  have hct : (0 : ℚ) < cycleT pd := cycleT_pos pd
  have hA : (0 : ℚ) < 3600 / cycleT pd := div_pos (by norm_num) hct
  have hcavQ : (0 : ℚ) < (cav : ℚ) := by exact_mod_cast hcav
  have hpph : (0 : ℚ) < 3600 / cycleT pd * (cav : ℚ) := mul_pos hA hcavQ
  refine ⟨_, computeQuote_MACHINES pd resin color cav, cycleT_ge pd, hpph, ?_, ?_⟩
  · field_simp
  · exact div_mul_cancel₀ _ (ne_of_gt hpph)

/-- Witness for `quote_no_division_by_zero` at the all-zero manual input. -/
theorem quote_no_division_by_zero_witness :
    ∃ q, computeQuote ⟨0, 0, 0, 0, 0⟩ ⟨1, 0.905, 1.80⟩ ⟨"natural", 0⟩ 1
        MACHINES RULES = some q ∧
      15 ≤ q.cycleTime ∧ 0 < q.partsPerHour ∧
      q.partsPerHour * q.cycleTime = 3600 * ((1 : ℕ) : ℚ) ∧
      q.machineCostPerPart * q.partsPerHour = q.selectedMachine.hourlyRate :=
  quote_no_division_by_zero ⟨0, 0, 0, 0, 0⟩ ⟨1, 0.905, 1.80⟩ ⟨"natural", 0⟩ 1
    le_rfl le_rfl le_rfl le_rfl le_rfl le_rfl

/-- **C8** (confirmed): with geometry, material, color, rules and the
shipped machine catalog fixed, (i) increasing the cavity count strictly
decreases `machineCostPerPart` as long as the selected machine is
unchanged; (ii) beyond 2 cavities the mold (hence the selected machine)
never changes again, so the only possible selection change is at the
1 → 2 boundary; (iii) at that boundary the selection changes only if the
enlarged mold violates the cavity-1 machine's envelope — if that machine
still fits the enlarged mold, the selection is unchanged.  Hence the cost
discontinuity can occur only at the envelope boundary. -/
theorem cavity_cost_monotonicity :
    (∀ (pd : PartData) (resin : Resin) (color : ColorOption) (cav cav' : ℕ)
      (q q' : QuoteResult), 1 ≤ cav → cav < cav' →
      computeQuote pd resin color cav MACHINES RULES = some q →
      computeQuote pd resin color cav' MACHINES RULES = some q' →
      q.selectedMachine = q'.selectedMachine →
      q'.machineCostPerPart < q.machineCostPerPart) ∧
    (∀ (pd : PartData) (resin : Resin) (color : ColorOption) (cav : ℕ)
      (q2 qc : QuoteResult), 2 ≤ cav →
      computeQuote pd resin color 2 MACHINES RULES = some q2 →
      computeQuote pd resin color cav MACHINES RULES = some qc →
      qc.selectedMachine = q2.selectedMachine) ∧
    (∀ (pd : PartData) (resin : Resin) (color : ColorOption)
      (q1 q2 : QuoteResult), 0 ≤ pd.width →
      computeQuote pd resin color 1 MACHINES RULES = some q1 →
      computeQuote pd resin color 2 MACHINES RULES = some q2 →
      fitsMold q1.selectedMachine q2.moldWidth q2.moldHeight →
      q2.selectedMachine = q1.selectedMachine) := by
  refine ⟨?_, ?_, ?_⟩
  · intro pd resin color cav cav' q q' hcav hlt hq hq' hsel
    rw [computeQuote_MACHINES, Option.some.injEq] at hq hq'
    subst hq; subst hq'
    dsimp only at hsel ⊢
    rw [← hsel]
    have hr : 0 < (machineFor (moldW pd cav) (moldH pd)).hourlyRate :=
      machineFor_rate_pos _ _
    have hA : (0 : ℚ) < 3600 / cycleT pd := div_pos (by norm_num) (cycleT_pos pd)
    have hc1 : (0 : ℚ) < (cav : ℚ) := by
      exact_mod_cast Nat.lt_of_lt_of_le Nat.zero_lt_one hcav
    have hcc : (cav : ℚ) < (cav' : ℚ) := by exact_mod_cast hlt
    have hb : (0 : ℚ) < 3600 / cycleT pd * (cav : ℚ) := mul_pos hA hc1
    have hbc : 3600 / cycleT pd * (cav : ℚ) < 3600 / cycleT pd * (cav' : ℚ) :=
      mul_lt_mul_of_pos_left hcc hA
    exact div_lt_div_of_pos_left hr hb hbc
  · intro pd resin color cav q2 qc h2 hq2 hqc
    rw [computeQuote_MACHINES, Option.some.injEq] at hq2 hqc
    subst hq2; subst hqc
    dsimp only
    have hmw : moldW pd cav = moldW pd 2 := by
      unfold moldW
      rw [if_pos (by omega), if_pos (by omega)]
    rw [hmw]
  · intro pd resin color q1 q2 hwidth hq1 hq2 hfit
    rw [computeQuote_MACHINES, Option.some.injEq] at hq1 hq2
    subst hq1; subst hq2
    dsimp only at hfit ⊢
    have hmw1 : moldW pd 1 = pd.width * 2.5 * 1 := by
      unfold moldW; rw [if_neg (by omega)]
    have hmw2 : moldW pd 2 = pd.width * 2.5 * 1.5 := by
      unfold moldW; rw [if_pos (by omega)]
    have haa' : moldW pd 1 ≤ moldW pd 2 := by
      rw [hmw1, hmw2]; nlinarith [hwidth]
    by_cases c1 : moldW pd 1 ≤ 300 ∧ moldH pd ≤ 300
    · have e1 : machineFor (moldW pd 1) (moldH pd) = ⟨1, 50, 65, 300, 300⟩ := by
        unfold machineFor; rw [if_pos c1]
      rw [e1] at hfit
      obtain ⟨hf1, hf2⟩ := hfit
      rw [e1]
      unfold machineFor
      rw [if_pos ⟨hf1, hf2⟩]
    · by_cases c2 : moldW pd 1 ≤ 450 ∧ moldH pd ≤ 450
      · have e2 : machineFor (moldW pd 1) (moldH pd) = ⟨2, 150, 85, 450, 450⟩ := by
          unfold machineFor; rw [if_neg c1, if_pos c2]
        rw [e2] at hfit
        obtain ⟨hf1, hf2⟩ := hfit
        have n1 : ¬(moldW pd 2 ≤ 300 ∧ moldH pd ≤ 300) := by
          rintro ⟨x1, x2⟩; exact c1 ⟨le_trans haa' x1, x2⟩
        rw [e2]
        unfold machineFor
        rw [if_neg n1, if_pos ⟨hf1, hf2⟩]
      · have e3 : machineFor (moldW pd 1) (moldH pd) = ⟨3, 300, 120, 600, 600⟩ := by
          unfold machineFor; rw [if_neg c1, if_neg c2]
        have n1 : ¬(moldW pd 2 ≤ 300 ∧ moldH pd ≤ 300) := by
          rintro ⟨x1, x2⟩; exact c1 ⟨le_trans haa' x1, x2⟩
        have n2 : ¬(moldW pd 2 ≤ 450 ∧ moldH pd ≤ 450) := by
          rintro ⟨x1, x2⟩; exact c2 ⟨le_trans haa' x1, x2⟩
        rw [e3]
        unfold machineFor
        rw [if_neg n1, if_neg n2]

/-- Witness for `cavity_cost_monotonicity`: at the end-to-end scenario part,
going from 1 to 2 cavities keeps the Small Press (the 300 mm mold still
fits) and strictly lowers the machine cost per part. -/
theorem cavity_cost_monotonicity_witness :
    ∃ q q' : QuoteResult,
      computeQuote ⟨50, 100, 80, 60, 2.5⟩ ⟨1, 0.905, 1.80⟩ ⟨"natural", 0⟩ 1
        MACHINES RULES = some q ∧
      computeQuote ⟨50, 100, 80, 60, 2.5⟩ ⟨1, 0.905, 1.80⟩ ⟨"natural", 0⟩ 2
        MACHINES RULES = some q' ∧
      q.selectedMachine = q'.selectedMachine ∧
      q'.machineCostPerPart < q.machineCostPerPart := by
  have hsel : (machineFor (moldW ⟨50, 100, 80, 60, 2.5⟩ 1)
        (moldH ⟨50, 100, 80, 60, 2.5⟩)) =
      (machineFor (moldW ⟨50, 100, 80, 60, 2.5⟩ 2)
        (moldH ⟨50, 100, 80, 60, 2.5⟩)) := by
    norm_num [machineFor, moldW, moldH]
  refine ⟨_, _, computeQuote_MACHINES _ _ _ 1, computeQuote_MACHINES _ _ _ 2,
    hsel, ?_⟩
  exact cavity_cost_monotonicity.1 _ _ _ 1 2 _ _ le_rfl (by omega)
    (computeQuote_MACHINES _ _ _ 1) (computeQuote_MACHINES _ _ _ 2) hsel

/-- `pickFirstMin` returns the first element attaining the minimal clamp
force, with the decomposition witnessing it. -/
lemma pickFirstMin_spec (l : List Machine) (hne : l ≠ []) :
    ∃ m pre post, pickFirstMin l = some m ∧ l = pre ++ m :: post ∧
      (∀ x ∈ pre, m.clampForce < x.clampForce) ∧
      (∀ x ∈ l, m.clampForce ≤ x.clampForce) := by
  induction l with
  | nil => exact absurd rfl hne
  | cons m rest ih =>
    cases rest with
    | nil => exact ⟨m, [], [], rfl, rfl, by simp, by simp⟩
    | cons m2 rest2 =>
      obtain ⟨m', pre', post', hpick, hsplit, hpre, hall⟩ := ih (by simp)
      have hstep : pickFirstMin (m :: m2 :: rest2) =
          if m'.clampForce < m.clampForce then some m' else some m := by
        rw [pickFirstMin, hpick]
      by_cases hlt : m'.clampForce < m.clampForce
      · refine ⟨m', m :: pre', post', ?_, ?_, ?_, ?_⟩
        · rw [hstep, if_pos hlt]
        · rw [List.cons_append, ← hsplit]
        · intro x hx
          rcases List.mem_cons.mp hx with h | h
          · subst h; exact hlt
          · exact hpre x h
        · intro x hx
          rcases List.mem_cons.mp hx with h | h
          · subst h; exact le_of_lt hlt
          · exact hall x h
      · refine ⟨m, [], m2 :: rest2, ?_, rfl, by simp, ?_⟩
        · rw [hstep, if_neg hlt]
        · intro x hx
          rcases List.mem_cons.mp hx with h | h
          · subst h; exact le_rfl
          · exact le_trans (not_lt.mp hlt) (hall x h)

/-- **C4 counterexample**: with a catalog listing the large press first and
the small press last, an oversized 700×700 mold makes the fallback select
the *last* machine — the small 50-ton press with the 300 mm envelope — not
the largest-capacity machine, refuting the claim for arbitrary catalogs. -/
theorem machine_selection_fallback_not_largest :
    selectMachine [⟨3, 300, 120, 600, 600⟩, ⟨1, 50, 65, 300, 300⟩] 700 700 =
      some ⟨1, 50, 65, 300, 300⟩ ∧
    (50 : ℚ) < 300 ∧ (300 : ℚ) < 600 := by decide

/-- **C4** (corrected): among fitting machines the selection picks the one
with the least clamp force, first in catalog order on ties; when no machine
fits it falls back to the **last machine in catalog order** (which, for the
shipped `MACHINES` catalog, is the largest-capacity machine), and selection
never fails on a non-empty catalog. -/
theorem machine_selection_amended :
    (∀ (machines : List Machine) (mw mh : ℚ), machines ≠ [] →
      ∃ m, selectMachine machines mw mh = some m ∧ m ∈ machines) ∧
    (∀ (machines : List Machine) (mw mh : ℚ),
      machines.filter (fun m => fitsMold m mw mh) = [] →
      selectMachine machines mw mh = machines.getLast?) ∧
    (∀ (machines : List Machine) (mw mh : ℚ),
      machines.filter (fun m => fitsMold m mw mh) ≠ [] →
      ∃ m pre post, selectMachine machines mw mh = some m ∧
        machines.filter (fun m => fitsMold m mw mh) = pre ++ m :: post ∧
        (∀ x ∈ pre, m.clampForce < x.clampForce) ∧
        (∀ x ∈ machines.filter (fun m => fitsMold m mw mh),
          m.clampForce ≤ x.clampForce)) ∧
    MACHINES.getLast? = some ⟨3, 300, 120, 600, 600⟩ ∧
    (∀ m ∈ MACHINES, m.clampForce ≤ 300 ∧ m.maxMoldWidth ≤ 600 ∧
      m.maxMoldHeight ≤ 600) := by
  have hempty : ∀ (machines : List Machine) (mw mh : ℚ),
      machines.filter (fun m => fitsMold m mw mh) = [] →
      selectMachine machines mw mh = machines.getLast? := by
    intro machines mw mh hfe
    unfold selectMachine
    rw [hfe]
    rfl
  have hfull : ∀ (machines : List Machine) (mw mh : ℚ),
      machines.filter (fun m => fitsMold m mw mh) ≠ [] →
      ∃ m pre post, selectMachine machines mw mh = some m ∧
        machines.filter (fun m => fitsMold m mw mh) = pre ++ m :: post ∧
        (∀ x ∈ pre, m.clampForce < x.clampForce) ∧
        (∀ x ∈ machines.filter (fun m => fitsMold m mw mh),
          m.clampForce ≤ x.clampForce) := by
    intro machines mw mh hne
    obtain ⟨m, pre, post, hpick, hsplit, hpre, hall⟩ :=
      pickFirstMin_spec _ hne
    refine ⟨m, pre, post, ?_, hsplit, hpre, hall⟩
    unfold selectMachine
    rw [hpick]
  refine ⟨?_, hempty, hfull, rfl, by decide⟩
  · intro machines mw mh hne
    rcases hfe : machines.filter (fun m => fitsMold m mw mh) with _ | ⟨f, fs⟩
    · refine ⟨machines.getLast hne, ?_, List.getLast_mem hne⟩
      rw [hempty machines mw mh hfe, List.getLast?_eq_getLast _ hne]
    · obtain ⟨m, pre, post, hsel, hsplit, hpre, hall⟩ :=
        hfull machines mw mh (by rw [hfe]; simp)
      refine ⟨m, hsel, List.mem_of_mem_filter (p := fun m => fitsMold m mw mh) ?_⟩
      rw [hsplit]
      exact List.mem_append_right _ (List.mem_cons_self _ _)

/-- Witness for `machine_selection_amended` at concrete catalogs: a 400 mm
mold on the shipped catalog (two machines fit), and an oversized mold on a
one-machine catalog (empty fit set → last machine). -/
theorem machine_selection_amended_witness :
    (∃ m, selectMachine MACHINES 400 400 = some m ∧ m ∈ MACHINES) ∧
    selectMachine [⟨1, 50, 65, 300, 300⟩] 700 700 =
      [(⟨1, 50, 65, 300, 300⟩ : Machine)].getLast? ∧
    (∃ m pre post, selectMachine MACHINES 400 400 = some m ∧
      MACHINES.filter (fun m => fitsMold m 400 400) = pre ++ m :: post ∧
      (∀ x ∈ pre, m.clampForce < x.clampForce) ∧
      (∀ x ∈ MACHINES.filter (fun m => fitsMold m 400 400),
        m.clampForce ≤ x.clampForce)) :=
  ⟨machine_selection_amended.1 MACHINES 400 400 (by decide),
   machine_selection_amended.2.1 [⟨1, 50, 65, 300, 300⟩] 700 700 (by decide),
   machine_selection_amended.2.2.1 MACHINES 400 400 (by decide)⟩

/-- **C3** (confirmed): all three wall-thickness heuristics in the source
map their representative size scalar through the same stepped lookup
`s<25→1.0; <50→1.5; <100→2.0; <200→2.5; else→3.0` — the mean-of-dimensions
copy, the bounding-sphere-diameter copy, and the bounding-box copy agree
with the single spec lookup (hence with each other) at every size. -/
theorem wall_thickness_single_lookup :
    (∀ length width height : ℚ,
      estimateWallThicknessFromDimensions length width height =
        wallThicknessSpec ((length + width + height) / 3)) ∧
    (∀ radius : ℚ,
      estimateWallThicknessSTL radius = wallThicknessSpec (radius * 2)) ∧
    (∀ w d h : ℚ,
      estimateWallThicknessFromBoundingBox ⟨.fin w, .fin d, .fin h⟩ =
        wallThicknessSpec ((w + d + h) / 3)) := by
  refine ⟨fun l w h => rfl, fun r => rfl, ?_⟩
  intro w d h
  have havg : JNum.div (JNum.add (JNum.add (.fin w) (.fin d)) (.fin h)) (.fin 3) =
      .fin ((w + d + h) / 3) := by
    show JNum.div (.fin (w + d + h)) (.fin 3) = .fin ((w + d + h) / 3)
    simp only [JNum.div]
    rw [if_neg (by norm_num : ¬(3 : ℚ) = 0)]
  unfold estimateWallThicknessFromBoundingBox wallThicknessSpec
  rw [havg]
  simp only [JNum.lt, decide_eq_true_eq]

/-- **C1** (corrected): when the heuristic extractor finds **strictly more
than 10** (i.e. at least 11) valid points, the PointExtraction tier
succeeds and the accuracy tier is High, regardless of any dimension-pattern
numeral in the text.  (At exactly 10 points the code's `points.length > 10`
test fails — see `point_extraction_at_ten_counterexample`.) -/
theorem point_extraction_tier_amended (g : StepGeometryData) (cbrt : ℚ → ℚ)
    (scanLines : List (List ℚ)) (fileSize : ℕ)
    (hvalid : ∀ p ∈ g.points, isValidPointJ p = true)
    (hn : 11 ≤ g.points.length) :
    (parseSTEPGeometry g).isSome = true ∧
    (analyzeSTEP g cbrt scanLines fileSize).accuracy = .high := by
  have hgt : 10 < g.points.length := hn
  constructor
  · unfold parseSTEPGeometry
    rw [if_pos hgt]
    rfl
  · unfold analyzeSTEP parseSTEPGeometry
    rw [if_pos hgt]

/-- Witness for `point_extraction_tier_amended`: eleven valid points give
tier High even with a dimension numeral present. -/
theorem point_extraction_tier_amended_witness :
    (parseSTEPGeometry ⟨elevenPoints, 1⟩).isSome = true ∧
    (analyzeSTEP ⟨elevenPoints, 1⟩ (fun _ => 0) [[45]] 5000).accuracy = .high :=
  point_extraction_tier_amended ⟨elevenPoints, 1⟩ (fun _ => 0) [[45]] 5000
    (by decide) (by decide)

/-- **C1 counterexample**: a text input from which the extractor finds
exactly 10 valid coordinate points (with a dimension-pattern numeral 45.0
present) does **not** get tier High: `points.length > 10` fails and the
cascade falls to the dimension scan, tier Medium. -/
theorem point_extraction_at_ten_counterexample :
    tenPoints.length = 10 ∧
    tenPoints.all isValidPointJ = true ∧
    (analyzeSTEP ⟨tenPoints, 1⟩ (fun _ => 0) [[45]] 5000).accuracy = .medium := by
  refine ⟨rfl, by decide, by decide⟩


/-- **C5 counterexample**: `part.iges` passes validation (`.iges` is a
supported extension, size below the cap), the bytes are read, yet the
analysis entry point propagates an error that is neither a validation
error nor a read failure — the dispatch throws `Unsupported file type`. -/
theorem validated_iges_rejected :
    validateFile "part.iges" 100 = .ok () ∧
    analyzeCADFile "part.iges" (.ok dummyParsed) ⟨[], 1⟩ (fun _ => 0) [] 100 =
      .error "Failed to analyze IGES file: Unsupported file type: iges" := by
  exact ⟨rfl, rfl⟩

/-- **C5** (corrected): STEP inputs never propagate an error — every
estimation failure is absorbed by the cascade; STL inputs succeed whenever
the mesh parses, but a parse/integration failure is re-thrown to the caller
as `Failed to analyze STL file: ...` (and validated IGES files are rejected
by the dispatch, see `validated_iges_rejected`). -/
theorem analysis_error_propagation_amended :
    (∀ (name : String) (parsed : Except String ParsedSTL) (g : StepGeometryData)
      (cbrt : ℚ → ℚ) (scanLines : List (List ℚ)) (fileSize : ℕ),
      getFileType name = some .step →
      ∃ r, analyzeCADFile name parsed g cbrt scanLines fileSize = .ok r) ∧
    (∀ (name : String) (a : ParsedSTL) (g : StepGeometryData)
      (cbrt : ℚ → ℚ) (scanLines : List (List ℚ)) (fileSize : ℕ),
      getFileType name = some .stl →
      ∃ r, analyzeCADFile name (.ok a) g cbrt scanLines fileSize = .ok r) ∧
    (∀ (name e : String) (g : StepGeometryData)
      (cbrt : ℚ → ℚ) (scanLines : List (List ℚ)) (fileSize : ℕ),
      getFileType name = some .stl →
      analyzeCADFile name (.error e) g cbrt scanLines fileSize =
        .error ("Failed to analyze STL file: " ++ e)) := by
  refine ⟨?_, ?_, ?_⟩
  · intro name parsed g cbrt scanLines fileSize hft
    unfold analyzeCADFile
    rw [hft]
    exact ⟨_, rfl⟩
  · intro name a g cbrt scanLines fileSize hft
    unfold analyzeCADFile
    rw [hft]
    exact ⟨_, rfl⟩
  · intro name e g cbrt scanLines fileSize hft
    unfold analyzeCADFile
    rw [hft]
    rfl

/-- Witness for `analysis_error_propagation_amended` at concrete file
names and parse outcomes. -/
theorem analysis_error_propagation_amended_witness :
    (∃ r, analyzeCADFile "box.step" (.ok dummyParsed) ⟨[], 1⟩ (fun _ => 0) [] 0
      = .ok r) ∧
    (∃ r, analyzeCADFile "box.stl" (.ok dummyParsed) ⟨[], 1⟩ (fun _ => 0) [] 0
      = .ok r) ∧
    analyzeCADFile "box.stl" (.error "malformed mesh") ⟨[], 1⟩ (fun _ => 0) [] 0
      = .error ("Failed to analyze STL file: " ++ "malformed mesh") :=
  ⟨analysis_error_propagation_amended.1 "box.step" _ ⟨[], 1⟩ (fun _ => 0) [] 0
      (by decide),
   analysis_error_propagation_amended.2.1 "box.stl" dummyParsed ⟨[], 1⟩
      (fun _ => 0) [] 0 (by decide),
   analysis_error_propagation_amended.2.2 "box.stl" "malformed mesh" ⟨[], 1⟩
      (fun _ => 0) [] 0 (by decide)⟩


end MoldQuote

namespace MoldQuote

lemma jmin_fin (a x : ℚ) : JNum.min (.fin a) (.fin x) = .fin (qmin a x) := by
  by_cases h : x < a <;> simp [JNum.min, JNum.lt, qmin, h]

lemma jmax_fin (a x : ℚ) : JNum.max (.fin a) (.fin x) = .fin (qmax a x) := by
  by_cases h : a < x <;> simp [JNum.max, JNum.lt, qmax, h]

lemma jsub_fin (a b : ℚ) : JNum.sub (.fin a) (.fin b) = .fin (a - b) := by
  show JNum.fin (a + -b) = .fin (a - b)
  rw [← sub_eq_add_neg]

lemma foldMinBy_map_fin (f : JPoint → JNum) (fq : QPoint → ℚ)
    (hf : ∀ q, f (finPoint q) = .fin (fq q)) (qs : List QPoint) :
    ∀ a : ℚ, foldMinBy f (.fin a) (qs.map finPoint) =
      .fin (qs.foldl (fun b p => qmin b (fq p)) a) := by
  induction qs with
  | nil => intro a; rfl
  | cons q qs ih =>
    intro a
    calc foldMinBy f (.fin a) ((q :: qs).map finPoint)
        = foldMinBy f (JNum.min (.fin a) (f (finPoint q))) (qs.map finPoint) := rfl
      _ = foldMinBy f (.fin (qmin a (fq q))) (qs.map finPoint) := by
          rw [hf q, jmin_fin]
      _ = .fin (qs.foldl (fun b p => qmin b (fq p)) (qmin a (fq q))) := ih _
      _ = .fin ((q :: qs).foldl (fun b p => qmin b (fq p)) a) := rfl

lemma foldMaxBy_map_fin (f : JPoint → JNum) (fq : QPoint → ℚ)
    (hf : ∀ q, f (finPoint q) = .fin (fq q)) (qs : List QPoint) :
    ∀ a : ℚ, foldMaxBy f (.fin a) (qs.map finPoint) =
      .fin (qs.foldl (fun b p => qmax b (fq p)) a) := by
  induction qs with
  | nil => intro a; rfl
  | cons q qs ih =>
    intro a
    calc foldMaxBy f (.fin a) ((q :: qs).map finPoint)
        = foldMaxBy f (JNum.max (.fin a) (f (finPoint q))) (qs.map finPoint) := rfl
      _ = foldMaxBy f (.fin (qmax a (fq q))) (qs.map finPoint) := by
          rw [hf q, jmax_fin]
      _ = .fin (qs.foldl (fun b p => qmax b (fq p)) (qmax a (fq q))) := ih _
      _ = .fin ((q :: qs).foldl (fun b p => qmax b (fq p)) a) := rfl

lemma foldMinBy_posInf_cons (f : JPoint → JNum) (fq : QPoint → ℚ)
    (hf : ∀ q, f (finPoint q) = .fin (fq q)) (q : QPoint) (qs : List QPoint) :
    foldMinBy f .posInf ((q :: qs).map finPoint) =
      .fin (qs.foldl (fun b p => qmin b (fq p)) (fq q)) := by
  calc foldMinBy f .posInf ((q :: qs).map finPoint)
      = foldMinBy f (JNum.min .posInf (f (finPoint q))) (qs.map finPoint) := rfl
    _ = foldMinBy f (.fin (fq q)) (qs.map finPoint) := by rw [hf q]; rfl
    _ = .fin (qs.foldl (fun b p => qmin b (fq p)) (fq q)) :=
        foldMinBy_map_fin f fq hf qs _

lemma foldMaxBy_negInf_cons (f : JPoint → JNum) (fq : QPoint → ℚ)
    (hf : ∀ q, f (finPoint q) = .fin (fq q)) (q : QPoint) (qs : List QPoint) :
    foldMaxBy f .negInf ((q :: qs).map finPoint) =
      .fin (qs.foldl (fun b p => qmax b (fq p)) (fq q)) := by
  calc foldMaxBy f .negInf ((q :: qs).map finPoint)
      = foldMaxBy f (JNum.max .negInf (f (finPoint q))) (qs.map finPoint) := rfl
    _ = foldMaxBy f (.fin (fq q)) (qs.map finPoint) := by rw [hf q]; rfl
    _ = .fin (qs.foldl (fun b p => qmax b (fq p)) (fq q)) :=
        foldMaxBy_map_fin f fq hf qs _

lemma jmin_nonFinite {a b : JNum} (ha : a.isFinite = false)
    (hb : b.isFinite = false) : (JNum.min a b).isFinite = false := by
  cases a <;> cases b <;> simp_all [JNum.min, JNum.lt, JNum.isFinite]

lemma foldMinBy_nonFinite (f : JPoint → JNum) :
    ∀ (ps : List JPoint) (acc : JNum), acc.isFinite = false →
      (∀ p ∈ ps, (f p).isFinite = false) →
      (foldMinBy f acc ps).isFinite = false := by
  intro ps
  induction ps with
  | nil => intro acc h _; exact h
  | cons p ps ih =>
    intro acc hacc hf
    show (foldMinBy f (JNum.min acc (f p)) ps).isFinite = false
    exact ih _ (jmin_nonFinite hacc (hf p (List.mem_cons_self _ _)))
      (fun x hx => hf x (List.mem_cons_of_mem _ hx))

/-- `calculateBoundingBoxFromPoints` agrees with the spec's
`BoundingBoxEstimator` on every finite point set. -/
lemma calcBBoxFromPoints_finite (qs : List QPoint) :
    calculateBoundingBoxFromPoints (qs.map finPoint) =
      finBox (specBoundingBox qs) := by
  cases qs with
  | nil => rfl
  | cons q rest =>
    have hne : ¬((q :: rest).map finPoint).length = 0 := by simp
    simp only [calculateBoundingBoxFromPoints, if_neg hne,
      foldMinBy_posInf_cons (·.x) (·.x) (fun _ => rfl) q rest,
      foldMinBy_posInf_cons (·.y) (·.y) (fun _ => rfl) q rest,
      foldMinBy_posInf_cons (·.z) (·.z) (fun _ => rfl) q rest,
      foldMaxBy_negInf_cons (·.x) (·.x) (fun _ => rfl) q rest,
      foldMaxBy_negInf_cons (·.y) (·.y) (fun _ => rfl) q rest,
      foldMaxBy_negInf_cons (·.z) (·.z) (fun _ => rfl) q rest,
      JNum.isFinite, if_pos, jsub_fin, jmax_fin]
    rfl

/-- `calculateBoundingBoxFromPoints` returns the default box on any
non-empty all-non-finite point set. -/
lemma calcBBoxFromPoints_nonfinite (ps : List JPoint) (hne : ps ≠ [])
    (hnf : ∀ p ∈ ps, p.x.isFinite = false ∧ p.y.isFinite = false ∧
      p.z.isFinite = false) :
    calculateBoundingBoxFromPoints ps = defaultBox := by
  have hlen : ¬ps.length = 0 := fun h => hne (List.length_eq_zero.mp h)
  have hx : (foldMinBy (·.x) .posInf ps).isFinite = false :=
    foldMinBy_nonFinite _ ps .posInf rfl (fun p hp => (hnf p hp).1)
  simp only [calculateBoundingBoxFromPoints, if_neg hlen, hx]
  rfl

/-- With fewer than 10 finite points the outlier filter is the identity and
`calculateAccurateBoundingBox` also agrees with the spec estimator. -/
lemma calcAccurateBBox_small_finite (qs : List QPoint) (hlen : qs.length < 10) :
    calculateAccurateBoundingBox (qs.map finPoint) =
      finBox (specBoundingBox qs) := by
  have hro : removeOutliers (qs.map finPoint) = qs.map finPoint :=
    outlier_filter_small_identity _ (by simpa using hlen)
  cases qs with
  | nil => rfl
  | cons q rest =>
    have hne : ¬((q :: rest).map finPoint).length = 0 := by simp
    simp only [calculateAccurateBoundingBox, if_neg hne, hro,
      foldMinBy_posInf_cons (·.x) (·.x) (fun _ => rfl) q rest,
      foldMinBy_posInf_cons (·.y) (·.y) (fun _ => rfl) q rest,
      foldMinBy_posInf_cons (·.z) (·.z) (fun _ => rfl) q rest,
      foldMaxBy_negInf_cons (·.x) (·.x) (fun _ => rfl) q rest,
      foldMaxBy_negInf_cons (·.y) (·.y) (fun _ => rfl) q rest,
      foldMaxBy_negInf_cons (·.z) (·.z) (fun _ => rfl) q rest,
      JNum.isFinite, Bool.not_true, Bool.false_eq_true, if_false,
      jsub_fin, jmax_fin]
    rfl

end MoldQuote

namespace MoldQuote

/-- **C6 counterexample**: on a non-empty all-NaN point set the bounding-box
routine the STEP cascade calls returns a NaN box, not the default
100×80×60 box the claim requires. -/
theorem accurate_bbox_nan_counterexample :
    calculateAccurateBoundingBox [⟨.nan, .nan, .nan⟩] = ⟨.nan, .nan, .nan⟩ ∧
    calculateAccurateBoundingBox [⟨.nan, .nan, .nan⟩] ≠ defaultBox ∧
    ((⟨.nan, .nan, .nan⟩ : JPoint).x.isFinite = false ∧
     (⟨.nan, .nan, .nan⟩ : JPoint).y.isFinite = false ∧
     (⟨.nan, .nan, .nan⟩ : JPoint).z.isFinite = false) := by decide

/-- **C6** (corrected): `calculateBoundingBoxFromPoints` behaves exactly as
claimed — default 100×80×60 on the empty set and on every non-empty
all-non-finite set, floored per-axis extents on every finite set.  But
`calculateAccurateBoundingBox` (the copy the STEP cascade calls) returns
the default only for the empty set: on a non-empty all-NaN set it
propagates NaN (see `accurate_bbox_nan_counterexample`), and on finite sets
its extents are those of the outlier-filtered subset — equal to the claimed
floored raw extents below 10 points, while the concrete 10-point
`outlierPoints` set yields width 1 where the raw extent is 100. -/
theorem bounding_box_estimator_amended :
    (∀ qs : List QPoint, calculateBoundingBoxFromPoints (qs.map finPoint) =
      finBox (specBoundingBox qs)) ∧
    (∀ ps : List JPoint, ps ≠ [] →
      (∀ p ∈ ps, p.x.isFinite = false ∧ p.y.isFinite = false ∧
        p.z.isFinite = false) →
      calculateBoundingBoxFromPoints ps = defaultBox) ∧
    (∀ qs : List QPoint, qs.length < 10 →
      calculateAccurateBoundingBox (qs.map finPoint) =
        finBox (specBoundingBox qs)) ∧
    calculateAccurateBoundingBox (outlierPoints.map finPoint) =
      finBox ⟨1, 8, 8⟩ ∧
    specBoundingBox outlierPoints = ⟨100, 8, 8⟩ :=
  ⟨calcBBoxFromPoints_finite, calcBBoxFromPoints_nonfinite,
   calcAccurateBBox_small_finite,
   by norm_num [calculateAccurateBoundingBox, removeOutliers, outlierPoints,
     finPoint, finBox, sumBy, foldMinBy, foldMaxBy, JNum.add, JNum.div,
     JNum.mul, JNum.sub, JNum.neg, JNum.lt, JNum.min, JNum.max,
     JNum.isFinite, List.filter, defaultBox],
   by norm_num [specBoundingBox, outlierPoints, qmin, qmax]⟩

/-- Witness for `bounding_box_estimator_amended` at concrete point sets:
an all-non-finite singleton (default box) and a finite 2-point set
(spec extents). -/
theorem bounding_box_estimator_amended_witness :
    calculateBoundingBoxFromPoints [⟨.posInf, .nan, .negInf⟩] = defaultBox ∧
    calculateAccurateBoundingBox [finPoint ⟨0, 0, 0⟩, finPoint ⟨2, 3, 4⟩] =
      finBox (specBoundingBox [⟨0, 0, 0⟩, ⟨2, 3, 4⟩]) :=
  ⟨bounding_box_estimator_amended.2.1 _ (by decide) (by decide),
   bounding_box_estimator_amended.2.2.1 [⟨0, 0, 0⟩, ⟨2, 3, 4⟩] (by decide)⟩

end MoldQuote

namespace MoldQuote

lemma foldl_add_eq_sum (f : Triangle → ℚ) (l : List Triangle) :
    ∀ a : ℚ, l.foldl (fun acc t => acc + f t) a = a + (l.map f).sum := by
  induction l with
  | nil => intro a; simp
  | cons t l ih =>
    intro a
    rw [List.foldl_cons, ih (a + f t), List.map_cons, List.sum_cons]
    ring

lemma tripleProduct_rigid (R : Mat3) (t : Vec3) (a b c : Vec3) :
    tripleProduct (rigidMap R t a) (rigidMap R t b) (rigidMap R t c) =
      detM R * tripleProduct a b c
      + dotV t (crossV (mulVec R a) (mulVec R b))
      + dotV t (crossV (mulVec R b) (mulVec R c))
      + dotV t (crossV (mulVec R c) (mulVec R a)) := by
  simp only [tripleProduct, rigidMap, vadd, mulVec, dotV, crossV, detM]
  ring

lemma dotV_crossV_swap (t p q : Vec3) :
    dotV t (crossV q p) = -dotV t (crossV p q) := by
  simp only [dotV, crossV]; ring

lemma multiset_sum_map_neg (M : Multiset (Vec3 × Vec3))
    (g : Vec3 × Vec3 → ℚ) : (M.map fun e => -(g e)).sum = -(M.map g).sum := by
  induction M using Multiset.induction with
  | empty => simp
  | cons a s ih => simp [ih, add_comm]

lemma sum_map_balanced_zero (M : Multiset (Vec3 × Vec3))
    (g : Vec3 × Vec3 → ℚ) (hM : M.map Prod.swap = M)
    (hg : ∀ e, g (Prod.swap e) = -(g e)) : (M.map g).sum = 0 := by
  have h1 : (M.map g).sum = ((M.map Prod.swap).map g).sum := by rw [hM]
  rw [Multiset.map_map] at h1
  have h2 : (M.map (g ∘ Prod.swap)).sum = (M.map fun e => -(g e)).sum := by
    apply congrArg
    exact Multiset.map_congr rfl (fun e _ => hg e)
  have h3 := multiset_sum_map_neg M g
  have heq : (M.map g).sum = -(M.map g).sum := by
    calc (M.map g).sum = (M.map (g ∘ Prod.swap)).sum := h1
      _ = (M.map fun e => -(g e)).sum := h2
      _ = -(M.map g).sum := h3
  linarith

lemma signedSum_rigid (R : Mat3) (t : Vec3) (tris : List Triangle) :
    ((tris.map (mapTriangle (rigidMap R t))).map
      (fun tr => tripleProduct tr.A tr.B tr.C / 6)).sum =
    detM R * ((tris.map (fun tr => tripleProduct tr.A tr.B tr.C / 6)).sum)
    + ((edgeList tris).map
        (fun e => dotV t (crossV (mulVec R e.1) (mulVec R e.2)) / 6)).sum := by
  induction tris with
  | nil => simp [edgeList]
  | cons tr tris ih =>
    simp only [List.map_cons, List.sum_cons, edgeList, ih]
    rw [show (mapTriangle (rigidMap R t) tr).A = rigidMap R t tr.A from rfl,
        show (mapTriangle (rigidMap R t) tr).B = rigidMap R t tr.B from rfl,
        show (mapTriangle (rigidMap R t) tr).C = rigidMap R t tr.C from rfl,
        tripleProduct_rigid]
    ring

lemma edge_correction_zero (R : Mat3) (t : Vec3) (tris : List Triangle)
    (hclosed : IsClosedMesh tris) :
    ((edgeList tris).map
      (fun e => dotV t (crossV (mulVec R e.1) (mulVec R e.2)) / 6)).sum = 0 := by
  have hM : ((edgeList tris : Multiset (Vec3 × Vec3))).map Prod.swap =
      (edgeList tris : Multiset (Vec3 × Vec3)) := by
    rw [Multiset.map_coe]
    exact hclosed
  have hz := sum_map_balanced_zero (edgeList tris)
    (fun e => dotV t (crossV (mulVec R e.1) (mulVec R e.2)) / 6) hM ?hg
  · rwa [Multiset.map_coe, Multiset.sum_coe] at hz
  case hg =>
    intro e
    show dotV t (crossV (mulVec R e.2) (mulVec R e.1)) / 6 =
      -(dotV t (crossV (mulVec R e.1) (mulVec R e.2)) / 6)
    rw [dotV_crossV_swap]
    ring

/-- **C7** (confirmed): the mesh integrator returns the absolute value of
the sum of scalar triple products `A · (B × C) / 6`; over exact arithmetic
the result is invariant under any permutation of the triangle list, and —
for a closed mesh (every directed edge matched by its reverse) — under any
rigid rotation plus translation of all vertices. -/
theorem mesh_volume_integrator_properties :
    (∀ tris : List Triangle, calculateSTLVolume tris =
      |(tris.map (fun tr => tripleProduct tr.A tr.B tr.C / 6)).sum|) ∧
    (∀ tris tris' : List Triangle, List.Perm tris tris' →
      calculateSTLVolume tris' = calculateSTLVolume tris) ∧
    (∀ (tris : List Triangle) (R : Mat3) (t : Vec3),
      IsRotation R → IsClosedMesh tris →
      calculateSTLVolume (tris.map (mapTriangle (rigidMap R t))) =
        calculateSTLVolume tris) := by
  have habs : ∀ tris : List Triangle, calculateSTLVolume tris =
      |(tris.map (fun tr => tripleProduct tr.A tr.B tr.C / 6)).sum| := by
    intro tris
    unfold calculateSTLVolume
    rw [foldl_add_eq_sum (fun tr => tripleProduct tr.A tr.B tr.C / 6) tris 0,
      zero_add, qabs_eq_abs]
  refine ⟨habs, ?_, ?_⟩
  · intro tris tris' hperm
    rw [habs tris', habs tris,
      (hperm.map (fun tr => tripleProduct tr.A tr.B tr.C / 6)).sum_eq]
  · intro tris R t hrot hclosed
    obtain ⟨-, -, -, -, -, -, hdet⟩ := hrot
    rw [habs, habs, signedSum_rigid, edge_correction_zero R t tris hclosed,
      hdet, one_mul, add_zero]

/-- Witness for `mesh_volume_integrator_properties`: the unit tetrahedron,
a transposition of its first two faces, and a 90° rotation about z plus
translation by (1,2,3). -/
theorem mesh_volume_integrator_properties_witness :
    calculateSTLVolume tetraMesh =
      calculateSTLVolume [tetraF1, tetraF0, tetraF2, tetraF3] ∧
    calculateSTLVolume (tetraMesh.map (mapTriangle (rigidMap rotZ ⟨1, 2, 3⟩))) =
      calculateSTLVolume tetraMesh :=
  ⟨mesh_volume_integrator_properties.2.1 [tetraF1, tetraF0, tetraF2, tetraF3]
      tetraMesh (List.Perm.swap tetraF0 tetraF1 [tetraF2, tetraF3]),
   mesh_volume_integrator_properties.2.2 tetraMesh rotZ ⟨1, 2, 3⟩
      (by norm_num [IsRotation, detM, rotZ]) (by decide)⟩

end MoldQuote
